import Mathlib

/-!
Verification of the framebuffer-update decoding pipeline of the
bigangryrobot/avacadovnc VNC client.

The Go sources are embedded shallowly: machine integers become `Nat` (all
values involved are non-negative and no claim depends on wrap-around),
byte streams become `List Nat`, fallible reads become `Option`/`Except`,
and the canvas becomes a pixel-valued function on coordinates.  Each
definition carries a comment naming the Go function it embeds.
-/

/-- Pixel format negotiated for a VNC session (`PixelFormat` in
`encoding_types.go`).  The `bpp` field holds *bits* per pixel (8, 16 or 32),
exactly as in the source; several decoders in the source nevertheless use it
as a byte count, and the embeddings below reproduce that faithfully. -/
structure PixelFormat where
  bpp : Nat
  depth : Nat
  bigEndian : Nat
  trueColor : Nat
  redMax : Nat
  greenMax : Nat
  blueMax : Nat
  redShift : Nat
  greenShift : Nat
  blueShift : Nat
  deriving DecidableEq

/-- An RGBA colour with 8-bit channels (`color.RGBA` from the Go image library,
as used by `PixelToRGBA`). -/
structure RGBA where
  r : Nat
  g : Nat
  b : Nat
  a : Nat
  deriving DecidableEq

/-- The colour map consulted by the paletted branch of `PixelToRGBA`
(`ColorMap` of the `vnc2video` side of the sources; its element type is
inferred from `return cm[pixel]` having type `color.RGBA`).  In Go it is a
fixed 256-entry array; the list model keeps the length observable, which is
all `PixelToRGBA` uses (`pixel < uint32(len(cm))`). -/
abbrev ColorMap := List RGBA

/-- Embedding of `PixelToRGBA` from `encoding_util.go` (lines 46-70).

True-colour branch: Go computes `uint8((float64(c) * 255.0) / float64(max))`.
For `c ≤ max ≤ 65535` the product `c * 255 ≤ 16711425` is exact in float64,
and the IEEE division is within `2^-29` of the exact rational quotient while
a non-integral exact quotient `k/max` is at least `1/max ≥ 2^-16` away from
every integer; an integral quotient is represented exactly.  Truncation of a
non-negative value toward zero is therefore exactly the floor of the exact
quotient, i.e. `Nat` division, which is what this embedding uses. -/
def PixelToRGBA (pixel : Nat) (pf : PixelFormat) (cm : Option ColorMap) : RGBA :=
  if pf.trueColor = 0 then
    match cm with
    | some m => if pixel < m.length then m.getD pixel ⟨0, 0, 0, 0⟩ else ⟨0, 0, 0, 255⟩
    | none => ⟨0, 0, 0, 255⟩
  else
    let red := (pixel >>> pf.redShift) &&& pf.redMax
    let green := (pixel >>> pf.greenShift) &&& pf.greenMax
    let blue := (pixel >>> pf.blueShift) &&& pf.blueMax
    ⟨red * 255 / pf.redMax, green * 255 / pf.greenMax, blue * 255 / pf.blueMax, 255⟩

/-- Packing channel values at their respective shifts (spec §8: `pack(pf,
c_r, c_g, c_b)`; the commented-out `Color.Write` in `encoding_types.go` packs
with `c_r << redShift | c_g << greenShift | c_b << blueShift`).  For a valid
format the three channel windows are pairwise disjoint, so the bitwise-or of
the shifted channels has no overlapping bits and equals their sum; the sum
form is used here. -/
def packPixel (pf : PixelFormat) (cr cg cb : Nat) : Nat :=
  cr * 2 ^ pf.redShift + cg * 2 ^ pf.greenShift + cb * 2 ^ pf.blueShift

/-- Modelled from the spec: `scale(c, max) = round(c · 255 / max)` (spec
§4.1), rounding half away from zero.  This is the scaling the claim
attributes to the converter; the source truncates instead. -/
def scaleRound (c m : Nat) : Nat := (c * 255 + m / 2) / m

/-- The RGB565 pixel format (bpp 16, red 5 bits at shift 11, green 6 bits at
shift 5, blue 5 bits at shift 0), a standard valid true-colour format used as
the concrete input for the C1 counterexample. -/
def pf565 : PixelFormat := ⟨16, 16, 0, 1, 31, 63, 31, 11, 5, 0⟩

/-- The `DefaultPixelFormat` of the library (`encoding_types.go`): 32 bpp, depth
24, little-endian, true colour, 8-bit channels at shifts 16/8/0. -/
def defaultPixelFormat : PixelFormat := ⟨32, 24, 0, 1, 255, 255, 255, 16, 8, 0⟩

/-- Big-endian 16-bit read from the wire (`binary.Read(c, binary.BigEndian,
&x)` for a `uint16`). -/
def readU16BE : List Nat → Option (Nat × List Nat)
  | b0 :: b1 :: rest => some (b0 * 256 + b1, rest)
  | _ => none

/-- Big-endian 32-bit read from the wire (`binary.Read` for a `uint32`). -/
def readU32BE : List Nat → Option (Nat × List Nat)
  | b0 :: b1 :: b2 :: b3 :: rest =>
      some (((b0 * 256 + b1) * 256 + b2) * 256 + b3, rest)
  | _ => none

/-- Embedding of `io.ReadFull` into a buffer of `n` bytes: take exactly `n` bytes or fail. -/
def readBytes (n : Nat) (w : List Nat) : Option (List Nat × List Nat) :=
  if n ≤ w.length then some (w.take n, w.drop n) else none

/-- Wire parsing of `CopyRectEncoding.Read` (`part_007`, lines 20-27): two
big-endian `uint16` reads giving the source point; nothing else is read. -/
def copyRectRead (wire : List Nat) : Option ((Nat × Nat) × List Nat) := do
  let (sx, wire) ← readU16BE wire
  let (sy, wire) ← readU16BE wire
  return ((sx, sy), wire)

/-- The canvas pixel grid, as a pixel value for each (x, y) coordinate.  The
Go canvas is a bounded `image.RGBA`; the claims proved about it concern
in-bounds rectangles, for which the unbounded function model agrees. -/
abbrev Canvas := Nat → Nat → Nat

/-- One row of a screen-to-screen copy: the per-row
`copy(dst.Pix[d0:d0+n], src.Pix[s0:s0+n])` inside the Go `drawCopySrc`.  Go `copy`
on overlapping slices behaves like `memmove`: the result is as if the whole
source segment were read before any write, which is exactly what reading
every source pixel from the pre-state `buf` expresses. -/
def rowBlit (buf : Canvas) (sx dx w srow drow : Nat) : Canvas :=
  fun x y =>
    if y = drow ∧ dx ≤ x ∧ x < dx + w then buf (sx + (x - dx)) srow else buf x y

/-- Embedding of `VncCanvas.Copy` (`part_006`, lines 154-162), which performs
`draw.Draw(c.img, dstRect, c.img, src, draw.Src)` on one and the same image.
For `*image.RGBA` source and destination with `draw.Src`, the Go image/draw
package runs `drawCopySrc`, which copies the rows top-down when
`dstRect.Min.Y <= sp.Y` and bottom-up otherwise, each row with the built-in
(memmove-like) `copy`.  This definition is that algorithm; clipping is the
identity for the in-bounds rectangles the claim is about. -/
def drawCopySrc (buf : Canvas) (sx sy dx dy w h : Nat) : Canvas :=
  if dy ≤ sy then
    (List.range h).foldl (fun b i => rowBlit b sx dx w (sy + i) (dy + i)) buf
  else
    ((List.range h).reverse).foldl (fun b i => rowBlit b sx dx w (sy + i) (dy + i)) buf

/-- The non-aliased reference blit: every destination pixel takes the value
the source pixel had before the copy started (equivalently, a copy through an
intermediate buffer that is not aliased with the canvas). -/
def blitRect (buf : Canvas) (sx sy dx dy w h : Nat) : Canvas :=
  fun x y =>
    if dx ≤ x ∧ x < dx + w ∧ dy ≤ y ∧ y < dy + h then
      buf (sx + (x - dx)) (sy + (y - dy))
    else buf x y

/-- A zlib inflate context, observed through the compressed bytes it has been
given since it was created or last reset (`none`: no reader exists yet).
`zlib.NewReader(bytes.NewReader(d))` and `Resetter.Reset(bytes.NewReader(d),
nil)` both leave the context parsing a fresh zlib stream consisting of
exactly `d`; appending to a persistent stream would instead extend the list. -/
abbrev ZStream := Option (List Nat)

/-- Observable outcome of one Zlib-encoding rectangle read: the stream state,
the number of uncompressed bytes requested from it, and the remaining wire. -/
structure ZlibReadResult where
  stream : ZStream
  outLen : Nat
  rest : List Nat
  deriving DecidableEq

/-- Embedding of `ZlibEncoding.Read` (`part_000`, lines 24-79): u32 length, that many
compressed bytes; a zero length returns early; otherwise the zlib reader is
created over — or `Reset` onto — exactly the new data, and
`rect.Width * rect.Height * PixelFormat.BPP` uncompressed bytes are requested
(the BPP bit count is used as a byte count). -/
def zlibEncodingRead (pf : PixelFormat) (w h : Nat) (st : ZStream) (wire : List Nat) :
    Option ZlibReadResult := do
  let (len, wire) ← readU32BE wire
  if len = 0 then
    return ⟨st, 0, wire⟩
  else
    let (data, wire) ← readBytes len wire
    return ⟨some data, w * h * pf.bpp, wire⟩

/-- Modelled from the spec (§4.5): the Zlib encoding uses exactly one
persistent zlib stream; the bytes of each rectangle continue the inflate context
left by the previous one, and exactly w·h·bytes-per-pixel uncompressed bytes
are produced. -/
def zlibReadSpecModel (pf : PixelFormat) (w h : Nat) (st : ZStream) (wire : List Nat) :
    Option ZlibReadResult := do
  let (len, wire) ← readU32BE wire
  let (data, wire) ← readBytes len wire
  return ⟨some (st.getD [] ++ data), w * h * (pf.bpp / 8), wire⟩

/-- The four zlib streams owned by `TightEncoding` (`zlibs [4]io.ReadCloser`). -/
structure TightStreams where
  s0 : ZStream
  s1 : ZStream
  s2 : ZStream
  s3 : ZStream
  deriving DecidableEq

/-- Stream lookup by id (`e.zlibs[streamID]`). -/
def getStream (st : TightStreams) (i : Nat) : ZStream :=
  if i = 0 then st.s0 else if i = 1 then st.s1 else if i = 2 then st.s2 else st.s3

/-- Stream update by id (`e.zlibs[streamID] = zr`). -/
def setStream (st : TightStreams) (i : Nat) (v : ZStream) : TightStreams :=
  if i = 0 then { st with s0 := v }
  else if i = 1 then { st with s1 := v }
  else if i = 2 then { st with s2 := v }
  else { st with s3 := v }

/-- Reset-bit processing at the top of `TightEncoding.Read` (lines 38-46):
bits 0-3 of the compression-control byte close and clear the corresponding
zlib streams before any dispatch on the upper bits. -/
def applyResetBits (cc : Nat) (st : TightStreams) : TightStreams :=
  let st := if cc &&& 1 ≠ 0 then { st with s0 := none } else st
  let st := if cc &&& 2 ≠ 0 then { st with s1 := none } else st
  let st := if cc &&& 4 ≠ 0 then { st with s2 := none } else st
  if cc &&& 8 ≠ 0 then { st with s3 := none } else st

/-- The compact length header of `TightEncoding.readCompressedData` (lines
262-279): low 7 bits per byte, high bit continues, the third byte contributes
all 8 of its bits. -/
def tightCompactLen : List Nat → Option (Nat × List Nat)
  | [] => none
  | b0 :: r0 =>
    if b0 &&& 0x80 = 0 then some (b0 &&& 0x7F, r0)
    else
      match r0 with
      | [] => none
      | b1 :: r1 =>
        if b1 &&& 0x80 = 0 then some ((b0 &&& 0x7F) ||| ((b1 &&& 0x7F) <<< 7), r1)
        else
          match r1 with
          | [] => none
          | b2 :: r2 => some ((b0 &&& 0x7F) ||| ((b1 &&& 0x7F) <<< 7) ||| (b2 <<< 14), r2)

/-- Embedding of `TightEncoding.readCompressedData` (lines 261-290): compact length, then
that many bytes (a zero length yields no data). -/
def tightReadCompressedData (wire : List Nat) : Option (List Nat × List Nat) := do
  let (len, wire) ← tightCompactLen wire
  if len = 0 then return ([], wire)
  else readBytes len wire

/-- What a Tight basic-compression handler did with the rectangle payload. -/
inductive TightPayload where
  | skipped : TightPayload
  | direct (bytes : List Nat) : TightPayload
  | inflated (fed : List Nat) (outLen : Nat) : TightPayload
  deriving DecidableEq

/-- Outcome of a Tight basic-compression data read. -/
structure TightCopyResult where
  streams : TightStreams
  payload : TightPayload
  rest : List Nat
  deriving DecidableEq

/-- Embedding of `TightEncoding.handleCopy` (lines 80-105) with `decompress` (226-258):
the uncompressed size is `rect.Width * BPP * rect.Height` (the BPP bit count
used as a byte count), a compact length is always read regardless of that
size, and the selected stream is pointed at exactly the new data
(`zlib.NewReader` / `Resetter.Reset`). -/
def tightHandleCopy (pf : PixelFormat) (w h : Nat) (sid : Nat) (st : TightStreams)
    (wire : List Nat) : Option TightCopyResult := do
  let uncompressedSize := w * pf.bpp * h
  let (data, wire) ← tightReadCompressedData wire
  if data = [] then return ⟨st, .skipped, wire⟩
  else return ⟨setStream st sid (some data), .inflated data uncompressedSize, wire⟩

/-- Modelled from the spec (§4.7): a Tight basic-compression payload whose
computed uncompressed size (w·h·bytes-per-pixel) is below 12 bytes is sent
uncompressed, with no compact length and no zlib framing; otherwise a compact
length is read and that many bytes are inflated through the selected
persistent stream. -/
def tightCopySpecModel (pf : PixelFormat) (w h : Nat) (sid : Nat) (st : TightStreams)
    (wire : List Nat) : Option TightCopyResult := do
  let uncompressedSize := w * h * (pf.bpp / 8)
  if uncompressedSize < 12 then
    let (data, wire) ← readBytes uncompressedSize wire
    return ⟨st, .direct data, wire⟩
  else
    let (data, wire) ← tightReadCompressedData wire
    return ⟨setStream st sid (some ((getStream st sid).getD [] ++ data)),
      .inflated data uncompressedSize, wire⟩

/-- The colour interpretation of `VncCanvas.Fill` (`part_006`, lines
129-143): bytes 0, 1, 2 are taken as B, G, R; alpha comes from byte 3 only
when exactly 4 bytes were supplied, otherwise alpha is 255. -/
def fillColor (colorBytes : List Nat) : RGBA :=
  let c : RGBA :=
    if 3 ≤ colorBytes.length then
      ⟨colorBytes.getD 2 0, colorBytes.getD 1 0, colorBytes.getD 0 0, 255⟩
    else ⟨0, 0, 0, 255⟩
  if colorBytes.length = 4 then ⟨c.r, c.g, c.b, colorBytes.getD 3 0⟩ else c

/-- Outcome of the Tight Fill path: resulting streams, fill colour, rest. -/
structure TightFillResult where
  streams : TightStreams
  color : RGBA
  rest : List Nat
  deriving DecidableEq

/-- The Fill path of `TightEncoding.Read` (lines 30-77) with `handleFill`
(108-120): read the compression-control byte, process its reset bits, then
for upper nibble 0x8 read `PixelFormat.BPP` colour bytes (the bit count used
as a byte count) and fill the rectangle with the `VncCanvas.Fill` colour.
Branches other than Fill are outside this model and return `none`. -/
def tightReadFill (pf : PixelFormat) (st : TightStreams) (wire : List Nat) :
    Option TightFillResult :=
  match wire with
  | [] => none
  | cc :: wire =>
    let st := applyResetBits cc st
    if cc &&& 0x80 = 0 then none
    else if cc &&& 0xF0 = 0x80 then
      match readBytes pf.bpp wire with
      | none => none
      | some (colorBytes, wire) => some ⟨st, fillColor colorBytes, wire⟩
    else none

/-- Modelled from the spec: `PixelFormat.BytesPerPixel`, called by the ZRLE
and CoRRE decoders, is not among the provided sources; the spec fixes pixels
at bpp/8 bytes (§3 PixelFormat, §4.1). -/
def bytesPerPixel (pf : PixelFormat) : Nat := pf.bpp / 8

/-- The tile widths produced by the loop of `ZRLEEncoding.Read` (lines
268-301): 16-pixel steps, `tileW = min(16, w - x)`. -/
def zrleCodeTileWs (w : Nat) : List Nat :=
  (List.range ((w + 15) / 16)).map fun i => min 16 (w - 16 * i)

/-- Modelled from the spec (§4.6): ZRLE partitions a rectangle into 64-pixel
tiles, the last one smaller. -/
def zrleSpecTileWs (w : Nat) : List Nat :=
  (List.range ((w + 63) / 64)).map fun i => min 64 (w - 64 * i)

/-- One scan line of `ZRLEEncoding.decodeTile` (lines 311-325): bytes are
read and discarded; with the RLE flag set, a value with the high bit set
covers a run of `(val & 0x7F) + 1` pixels.  Nothing is drawn. -/
def zrleTileRow (isRLE : Bool) : Nat → List Nat → Option (List Nat)
  | 0, dec => some dec
  | _ + 1, [] => none
  | r + 1, val :: dec =>
    let run := if isRLE ∧ val &&& 0x80 ≠ 0 then (val &&& 0x7F) + 1 else 1
    zrleTileRow isRLE (r + 1 - run) dec

/-- The row loop of `ZRLEEncoding.decodeTile` (lines 307-327). -/
def zrleDecodeTile (isRLE : Bool) (w : Nat) : Nat → List Nat → Option (List Nat)
  | 0, dec => some dec
  | hh + 1, dec =>
    match zrleTileRow isRLE w dec with
    | none => none
    | some dec => zrleDecodeTile isRLE w hh dec

/-- One tile of `ZRLEEncoding.Read` (lines 273-296): the subencoding byte,
`sub & 0x7F` palette entries of `BytesPerPixel()` bytes each, then the
discarded tile data. -/
def zrleTileCode (bpp tw th : Nat) (dec : List Nat) : Option (List Nat) :=
  match dec with
  | [] => none
  | sub :: dec =>
    match readBytes ((sub &&& 0x7F) * bpp) dec with
    | none => none
    | some (_pal, dec) => zrleDecodeTile ((sub &&& 0x80) != 0) tw th dec

/-- The tile grid of `ZRLEEncoding.Read`, row-major with 16-pixel steps in
both directions (`tw` unused by `decodeTile` aside from the scan bound). -/
def zrleCodeTiles (w h : Nat) : List (Nat × Nat) :=
  (zrleCodeTileWs h).flatMap fun th => (zrleCodeTileWs w).map fun tw => (tw, th)

/-- The full tile loop of `ZRLEEncoding.Read` applied to the decompressed
byte stream.  The canvas is never written on this path. -/
def zrleReadTiles (bpp w h : Nat) (dec : List Nat) : Option (List Nat) :=
  (zrleCodeTiles w h).foldlM (fun dec t => zrleTileCode bpp t.1 t.2 dec) dec

/-- A rectangle fill on the canvas, recorded as an event. -/
inductive FillOp where
  | fill (x y w h : Nat) (colorBytes : List Nat) : FillOp
  deriving DecidableEq

/-- Modelled from the spec (§4.6): a solid ZRLE tile (subencoding byte 1)
consists of exactly one CPIXEL, and decoding fills the whole tile with it. -/
def zrleSolidTileSpecModel (cpixel tx ty tw th : Nat) (dec : List Nat) :
    Option (FillOp × List Nat) :=
  match dec with
  | 1 :: rest => (readBytes cpixel rest).map fun p => (FillOp.fill tx ty tw th p.1, p.2)
  | _ => none

/-- The error produced by the Go `binary.Read` when handed the `Rectangle`
struct: the struct contains the 4-byte `EncType` and the interface field
`Enc Encoding`, `encoding/binary` computes size -1 for an interface field,
and `Read` returns "invalid type".  Both `RREEncoding.Read` (sub-rectangle
header) and `FramebufferUpdateMessage.Read` (rectangle header) hit this. -/
def binaryReadRectangleErr : String := "binary.Read: invalid type *avacadovnc.Rectangle"

/-- Embedding of `RREEncoding.Read` (`encoding_rre.go`, lines 19-67): u32 count, a
background colour of `PixelFormat.BPP` bytes (the bit count used as a byte
count), a whole-rectangle fill, then per sub-rectangle a colour of BPP bytes
followed by `binary.Read(&subRect)`, which always fails. -/
def rreReadCode (pf : PixelFormat) (rx ry rw rh : Nat) (wire : List Nat) :
    Except String (List FillOp × List Nat) :=
  match readU32BE wire with
  | none => .error "rre: failed to read number of sub-rectangles"
  | some (n, wire) =>
    match readBytes pf.bpp wire with
    | none => .error "rre: failed to read background color"
    | some (bg, wire) =>
      if n = 0 then .ok ([FillOp.fill rx ry rw rh bg], wire)
      else
        match readBytes pf.bpp wire with
        | none => .error "rre: failed to read sub-rectangle color"
        | some _ => .error binaryReadRectangleErr

/-- Modelled from the spec (§4.3 RRE): each sub-record is one
bytes-per-pixel-sized pixel followed by an 8-byte header (x, y, w, h as u16)
relative to the origin of the parent rectangle. -/
def rreSubLoopSpecModel (pf : PixelFormat) (rx ry : Nat) :
    Nat → List Nat → List FillOp → Option (List FillOp × List Nat)
  | 0, wire, acc => some (acc.reverse, wire)
  | n + 1, wire, acc => do
    let (px, wire) ← readBytes (pf.bpp / 8) wire
    let (sx, wire) ← readU16BE wire
    let (sy, wire) ← readU16BE wire
    let (sw, wire) ← readU16BE wire
    let (sh, wire) ← readU16BE wire
    rreSubLoopSpecModel pf rx ry n wire (FillOp.fill (rx + sx) (ry + sy) sw sh px :: acc)

/-- Modelled from the spec (§4.3 RRE): u32 count, one bytes-per-pixel
background pixel, a whole-rectangle fill, then the sub-records. -/
def rreReadSpecModel (pf : PixelFormat) (rx ry rw rh : Nat) (wire : List Nat) :
    Option (List FillOp × List Nat) := do
  let (n, wire) ← readU32BE wire
  let (bg, wire) ← readBytes (pf.bpp / 8) wire
  let (subs, wire) ← rreSubLoopSpecModel pf rx ry n wire []
  return (FillOp.fill rx ry rw rh bg :: subs, wire)

/-- Embedding of `FramebufferUpdateMessage.Read` (`encoding_types.go`, lines 580-607): one
padding byte, u16 rectangle count, then a loop whose first action per
rectangle is `binary.Read(c, binary.BigEndian, &rect)` on the `Rectangle`
struct, which always fails; the loop contains no LastRect check of any kind.
The result is how many rectangles were applied, with the remaining wire. -/
def framebufferUpdateReadCode (wire : List Nat) : Except String (Nat × List Nat) :=
  match wire with
  | [] => .error "EOF"
  | _pad :: wire =>
    match readU16BE wire with
    | none => .error "EOF"
    | some (n, wire) =>
      if n = 0 then .ok (0, wire)
      else .error binaryReadRectangleErr

/-- Lift a wire read into the error monad of the dispatcher. -/
def orEOF {α : Type} : Option α → Except String α
  | some a => .ok a
  | none => .error "EOF"

/-- Modelled from the spec (§4.9 and §4.8 LastRect): the dispatcher reads
8-byte rectangle headers plus 4-byte tags, stops at LastRect (tag -224, wire
value 0xFFFFFF20) without reading anything beyond it, and applies Raw (tag 0)
rectangles by consuming w·h·bytes-per-pixel payload bytes.  Other tags are
not needed for the inputs considered here. -/
def fbuSpecLoop (pf : PixelFormat) : Nat → Nat → List Nat → Except String (Nat × List Nat)
  | 0, applied, wire => .ok (applied, wire)
  | n + 1, applied, wire => do
    let (_x, wire) ← orEOF (readU16BE wire)
    let (_y, wire) ← orEOF (readU16BE wire)
    let (w, wire) ← orEOF (readU16BE wire)
    let (h, wire) ← orEOF (readU16BE wire)
    let (tag, wire) ← orEOF (readU32BE wire)
    if tag = 0xFFFFFF20 then .ok (applied, wire)
    else if tag = 0 then do
      let (_px, wire) ← orEOF (readBytes (w * h * (pf.bpp / 8)) wire)
      fbuSpecLoop pf n (applied + 1) wire
    else .error "unsupported encoding"

/-- Modelled from the spec (§4.9): one padding byte, u16 count, then the
rectangle loop. -/
def fbuReadSpecModel (pf : PixelFormat) (wire : List Nat) : Except String (Nat × List Nat) :=
  match wire with
  | [] => .error "EOF"
  | _pad :: wire =>
    match readU16BE wire with
    | none => .error "EOF"
    | some (n, wire) => fbuSpecLoop pf n 0 wire

/-- A `FramebufferUpdate` body with count 0xFFFF whose payload is one 1×1 Raw
rectangle followed by a LastRect pseudo-rectangle: padding, count, rectangle
header (0,0,1,1) with tag 0 and 4 payload bytes, then a header (0,0,0,0) with
tag 0xFFFFFF20 (-224). -/
def fbuWireExample : List Nat :=
  [0, 255, 255,
   0, 0, 0, 0, 0, 1, 0, 1, 0, 0, 0, 0, 9, 9, 9, 9,
   0, 0, 0, 0, 0, 0, 0, 0, 255, 255, 255, 32]

/-- An 8-bit paletted pixel format (true-colour flag 0). -/
def pf8Paletted : PixelFormat := ⟨8, 8, 0, 0, 0, 0, 0, 0, 0, 0⟩

/-- The closable state of a `ClientConn` (`part_002`): the `closed` flag, the
`quit` channel, and the underlying socket. -/
structure ConnState where
  closed : Bool
  quitClosed : Bool
  sockClosed : Bool
  deriving DecidableEq

/-- Embedding of `ClientConn.Close` (`part_002`, lines 149-162): under the mutex, a closed
connection returns nil immediately; otherwise the flag is set, the quit
channel and the socket are closed, and the close result of the socket is
returned.  `sockResult` stands for whatever `c.c.Close()` returns. -/
def clientConnClose (st : ConnState) (sockResult : Option String) :
    Option String × ConnState :=
  if st.closed then (none, st)
  else (sockResult, ⟨true, true, true⟩)

/-- Auxiliary: extracting a bit window by shift-and-mask from a value of the
form `lo + c·2^s + hi·2^(s+k)` with `lo < 2^s` and `c < 2^k` recovers `c`.
This is the generic shape of the true-colour channel extraction
`(pixel >> shift) & max` in `PixelToRGBA`. -/
theorem extractWindow (c lo hi s k : Nat) (hc : c < 2 ^ k) (hlo : lo < 2 ^ s) :
    ((lo + c * 2 ^ s + hi * 2 ^ (s + k)) >>> s) &&& (2 ^ k - 1) = c := by
  rw [Nat.shiftRight_eq_div_pow, Nat.and_pow_two_sub_one_eq_mod]
  have h1 : lo + c * 2 ^ s + hi * 2 ^ (s + k) = lo + 2 ^ s * (c + hi * 2 ^ k) := by
    rw [pow_add]; ring
  rw [h1, Nat.add_mul_div_left _ _ (pow_pos two_pos s), Nat.div_eq_of_lt hlo,
    Nat.zero_add, Nat.add_mul_mod_self_right, Nat.mod_eq_of_lt hc]

/-- Auxiliary: two packed channels whose windows are disjoint from each other
and from a third window `[s, s+k)` decompose into a low part below `2^s` and
a multiple of `2^(s+k)`. -/
theorem windowDecomp (a b sa sb ka kb s k : Nat)
    (ha : a < 2 ^ ka) (hb : b < 2 ^ kb)
    (hda : sa + ka ≤ s ∨ s + k ≤ sa)
    (hdb : sb + kb ≤ s ∨ s + k ≤ sb)
    (hab : sa + ka ≤ sb ∨ sb + kb ≤ sa) :
    ∃ lo hi, a * 2 ^ sa + b * 2 ^ sb = lo + hi * 2 ^ (s + k) ∧ lo < 2 ^ s := by
  have hamul : a * 2 ^ sa < 2 ^ (sa + ka) := by
    rw [pow_add, mul_comm ((2 : Nat) ^ sa) (2 ^ ka)]
    exact mul_lt_mul_of_pos_right ha (pow_pos two_pos sa)
  have hbmul : b * 2 ^ sb < 2 ^ (sb + kb) := by
    rw [pow_add, mul_comm ((2 : Nat) ^ sb) (2 ^ kb)]
    exact mul_lt_mul_of_pos_right hb (pow_pos two_pos sb)
  rcases hda with hda | hda
  · rcases hdb with hdb | hdb
    · -- both windows lie below `s`
      refine ⟨a * 2 ^ sa + b * 2 ^ sb, 0, by ring, ?_⟩
      have hs2 : (2 : Nat) ^ (sa + ka) ≤ 2 ^ s := Nat.pow_le_pow_right (by omega) hda
      have hs3 : (2 : Nat) ^ (sb + kb) ≤ 2 ^ s := Nat.pow_le_pow_right (by omega) hdb
      rcases hab with hab | hab
      · have h4 : (2 : Nat) ^ (sa + ka) ≤ 2 ^ sb := Nat.pow_le_pow_right (by omega) hab
        have h5 : b * 2 ^ sb + 2 ^ sb ≤ 2 ^ (sb + kb) := by
          rw [pow_add]
          calc b * 2 ^ sb + 2 ^ sb = (b + 1) * 2 ^ sb := by ring
          _ ≤ 2 ^ kb * 2 ^ sb := Nat.mul_le_mul_right _ (by omega)
          _ = 2 ^ sb * 2 ^ kb := by ring
        omega
      · have h4 : (2 : Nat) ^ (sb + kb) ≤ 2 ^ sa := Nat.pow_le_pow_right (by omega) hab
        have h5 : a * 2 ^ sa + 2 ^ sa ≤ 2 ^ (sa + ka) := by
          rw [pow_add]
          calc a * 2 ^ sa + 2 ^ sa = (a + 1) * 2 ^ sa := by ring
          _ ≤ 2 ^ ka * 2 ^ sa := Nat.mul_le_mul_right _ (by omega)
          _ = 2 ^ sa * 2 ^ ka := by ring
        omega
    · -- `a` below, `b` above
      refine ⟨a * 2 ^ sa, b * 2 ^ (sb - (s + k)), ?_, ?_⟩
      · have : b * 2 ^ (sb - (s + k)) * 2 ^ (s + k) = b * 2 ^ sb := by
          rw [mul_assoc, ← pow_add, Nat.sub_add_cancel hdb]
        omega
      · have hs2 : (2 : Nat) ^ (sa + ka) ≤ 2 ^ s := Nat.pow_le_pow_right (by omega) hda
        omega
  · rcases hdb with hdb | hdb
    · -- `a` above, `b` below
      refine ⟨b * 2 ^ sb, a * 2 ^ (sa - (s + k)), ?_, ?_⟩
      · have : a * 2 ^ (sa - (s + k)) * 2 ^ (s + k) = a * 2 ^ sa := by
          rw [mul_assoc, ← pow_add, Nat.sub_add_cancel hda]
        omega
      · have hs3 : (2 : Nat) ^ (sb + kb) ≤ 2 ^ s := Nat.pow_le_pow_right (by omega) hdb
        omega
    · -- both above
      refine ⟨0, a * 2 ^ (sa - (s + k)) + b * 2 ^ (sb - (s + k)), ?_, pow_pos two_pos s⟩
      have h6 : a * 2 ^ (sa - (s + k)) * 2 ^ (s + k) = a * 2 ^ sa := by
        rw [mul_assoc, ← pow_add, Nat.sub_add_cancel hda]
      have h7 : b * 2 ^ (sb - (s + k)) * 2 ^ (s + k) = b * 2 ^ sb := by
        rw [mul_assoc, ← pow_add, Nat.sub_add_cancel hdb]
      calc a * 2 ^ sa + b * 2 ^ sb
          = a * 2 ^ (sa - (s + k)) * 2 ^ (s + k) + b * 2 ^ (sb - (s + k)) * 2 ^ (s + k) := by
            rw [h6, h7]
      _ = 0 + (a * 2 ^ (sa - (s + k)) + b * 2 ^ (sb - (s + k))) * 2 ^ (s + k) := by ring

/-- Auxiliary: shift-and-mask extraction of one channel from a three-channel
packed pixel, provided the three windows are pairwise disjoint. -/
theorem extractPacked (c s k a sa ka b sb kb : Nat)
    (hc : c < 2 ^ k) (ha : a < 2 ^ ka) (hb : b < 2 ^ kb)
    (hda : sa + ka ≤ s ∨ s + k ≤ sa)
    (hdb : sb + kb ≤ s ∨ s + k ≤ sb)
    (hab : sa + ka ≤ sb ∨ sb + kb ≤ sa) :
    ((c * 2 ^ s + a * 2 ^ sa + b * 2 ^ sb) >>> s) &&& (2 ^ k - 1) = c := by
  obtain ⟨lo, hi, heq, hlo⟩ := windowDecomp a b sa sb ka kb s k ha hb hda hdb hab
  have h1 : c * 2 ^ s + a * 2 ^ sa + b * 2 ^ sb = lo + c * 2 ^ s + hi * 2 ^ (s + k) := by
    omega
  rw [h1]
  exact extractWindow c lo hi s k hc hlo

/-- C1 (amended): for every valid true-colour pixel format (channel maxima of
the form `2^k - 1`, pairwise-disjoint channel windows) and channel values
within range, `PixelToRGBA` applied to the packed pixel returns each channel
scaled as `floor(c · 255 / max)` — truncation, not rounding — with alpha 255. -/
theorem C1_truecolor_floor_scaling (pf : PixelFormat) (kr kg kb cr cg cb : Nat)
    (cm : Option ColorMap)
    (htc : pf.trueColor ≠ 0)
    (hr : pf.redMax = 2 ^ kr - 1) (hg : pf.greenMax = 2 ^ kg - 1)
    (hb : pf.blueMax = 2 ^ kb - 1)
    (hcr : cr ≤ pf.redMax) (hcg : cg ≤ pf.greenMax) (hcb : cb ≤ pf.blueMax)
    (hrg : pf.redShift + kr ≤ pf.greenShift ∨ pf.greenShift + kg ≤ pf.redShift)
    (hrb : pf.redShift + kr ≤ pf.blueShift ∨ pf.blueShift + kb ≤ pf.redShift)
    (hgb : pf.greenShift + kg ≤ pf.blueShift ∨ pf.blueShift + kb ≤ pf.greenShift) :
    PixelToRGBA (packPixel pf cr cg cb) pf cm =
      ⟨cr * 255 / pf.redMax, cg * 255 / pf.greenMax, cb * 255 / pf.blueMax, 255⟩ := by
  have h2r : (0 : Nat) < 2 ^ kr := pow_pos two_pos kr
  have h2g : (0 : Nat) < 2 ^ kg := pow_pos two_pos kg
  have h2b : (0 : Nat) < 2 ^ kb := pow_pos two_pos kb
  rw [hr] at hcr; rw [hg] at hcg; rw [hb] at hcb
  have hcr' : cr < 2 ^ kr := by omega
  have hcg' : cg < 2 ^ kg := by omega
  have hcb' : cb < 2 ^ kb := by omega
  have hpr : ((packPixel pf cr cg cb) >>> pf.redShift) &&& pf.redMax = cr := by
    rw [hr]
    exact extractPacked cr pf.redShift kr cg pf.greenShift kg cb pf.blueShift kb
      hcr' hcg' hcb' hrg.symm hrb.symm hgb
  have hpg : ((packPixel pf cr cg cb) >>> pf.greenShift) &&& pf.greenMax = cg := by
    rw [hg]
    have harr : packPixel pf cr cg cb =
        cg * 2 ^ pf.greenShift + cr * 2 ^ pf.redShift + cb * 2 ^ pf.blueShift := by
      unfold packPixel; ring
    rw [harr]
    exact extractPacked cg pf.greenShift kg cr pf.redShift kr cb pf.blueShift kb
      hcg' hcr' hcb' hrg hgb.symm hrb
  have hpb : ((packPixel pf cr cg cb) >>> pf.blueShift) &&& pf.blueMax = cb := by
    rw [hb]
    have harr : packPixel pf cr cg cb =
        cb * 2 ^ pf.blueShift + cr * 2 ^ pf.redShift + cg * 2 ^ pf.greenShift := by
      unfold packPixel; ring
    rw [harr]
    exact extractPacked cb pf.blueShift kb cr pf.redShift kr cg pf.greenShift kg
      hcb' hcr' hcg' hrb hgb hrg
  simp only [PixelToRGBA, if_neg htc]
  rw [hpr, hpg, hpb]

/-- C1: counterexample — at the valid RGB565 format with red channel value 3,
`PixelToRGBA` does not return `round(3·255/31) = 25` for the red component
(the source truncates the quotient 24.677… to 24), refuting the claim that
each extracted channel is scaled to 0..255 with rounding. -/
theorem C1_round_counterexample :
    PixelToRGBA (packPixel pf565 3 0 0) pf565 none ≠
      ⟨scaleRound 3 pf565.redMax, scaleRound 0 pf565.greenMax,
        scaleRound 0 pf565.blueMax, 255⟩ := by decide

/-- C1: witness — the amended theorem applied at the RGB565 format with
channel values (3, 20, 7). -/
theorem C1_truecolor_floor_scaling_witness :
    pf565.trueColor ≠ 0 ∧
    PixelToRGBA (packPixel pf565 3 20 7) pf565 none =
      ⟨3 * 255 / pf565.redMax, 20 * 255 / pf565.greenMax, 7 * 255 / pf565.blueMax, 255⟩ :=
  ⟨by decide, C1_truecolor_floor_scaling pf565 5 6 5 3 20 7 none (by decide) (by decide)
    (by decide) (by decide) (by decide) (by decide) (by decide) (by decide) (by decide)
    (by decide)⟩

/-- Auxiliary: pointwise congruence for canvas reads. -/
theorem bufCongr (buf : Canvas) {a b c d : Nat} (h1 : a = c) (h2 : b = d) :
    buf a b = buf c d := by rw [h1, h2]

/-- Auxiliary: copying rows top-down is the reference blit when the
destination starts at or above the source (`r.Min.Y <= sp.Y` in the Go
`drawCopySrc`): the source of each row has not yet been overwritten. -/
theorem auxRowsTopDown (buf : Canvas) (sx sy dx dy w : Nat) (hsy : dy ≤ sy) (t : Nat) :
    (List.range t).foldl (fun b i => rowBlit b sx dx w (sy + i) (dy + i)) buf
      = blitRect buf sx sy dx dy w t := by
  induction t with
  | zero =>
    funext x y
    simp only [List.range_zero, List.foldl_nil, blitRect]
    rw [if_neg (by omega)]
  | succ t ih =>
    rw [List.range_succ, List.foldl_append, List.foldl_cons, List.foldl_nil, ih]
    funext x y
    simp only [rowBlit, blitRect]
    split_ifs <;> first | rfl | exact bufCongr buf (by omega) (by omega)

/-- Auxiliary: copying rows bottom-up is the reference blit when the
destination starts strictly below the source: the source of each row lies above
every row already written. -/
theorem auxRowsBottomUp (sx sy dx dy w : Nat) (hsy : sy < dy) (t : Nat) :
    ∀ buf : Canvas,
      ((List.range t).reverse).foldl (fun b i => rowBlit b sx dx w (sy + i) (dy + i)) buf
        = blitRect buf sx sy dx dy w t := by
  induction t with
  | zero =>
    intro buf
    funext x y
    simp only [List.range_zero, List.reverse_nil, List.foldl_nil, blitRect]
    rw [if_neg (by omega)]
  | succ t ih =>
    intro buf
    rw [List.range_succ, List.reverse_append, List.reverse_cons, List.reverse_nil,
      List.nil_append, List.singleton_append, List.foldl_cons, ih]
    funext x y
    simp only [rowBlit, blitRect]
    split_ifs <;> first | rfl | exact bufCongr buf (by omega) (by omega)

/-- C4: a CopyRect rectangle reads exactly 4 payload bytes — the source x and
y as big-endian u16, no pixel data — and the canvas copy (the `draw.Draw` of
the canvas onto itself, i.e. `drawCopySrc`) equals the non-aliased reference
blit for every pair of source and destination regions, overlapping included. -/
theorem C4_copyrect_overlap_safe (W H sx sy dx dy w h : Nat) (buf : Canvas)
    (b0 b1 b2 b3 : Nat) (rest : List Nat)
    (_hsrc : sx + w ≤ W ∧ sy + h ≤ H) (_hdst : dx + w ≤ W ∧ dy + h ≤ H) :
    copyRectRead (b0 :: b1 :: b2 :: b3 :: rest)
        = some ((b0 * 256 + b1, b2 * 256 + b3), rest)
    ∧ drawCopySrc buf sx sy dx dy w h = blitRect buf sx sy dx dy w h := by
  refine ⟨rfl, ?_⟩
  unfold drawCopySrc
  by_cases hc : dy ≤ sy
  · rw [if_pos hc]
    exact auxRowsTopDown buf sx sy dx dy w hc h
  · rw [if_neg hc]
    exact auxRowsBottomUp sx sy dx dy w (by omega) h buf

/-- C4: witness — an 8×8 canvas with an overlapping copy of a 4×4 block from
(1,1) to (2,2), and the 4-byte payload `00 01 00 01`. -/
theorem C4_copyrect_overlap_safe_witness :
    (((1 : Nat) + 4 ≤ 8 ∧ (1 : Nat) + 4 ≤ 8) ∧ ((2 : Nat) + 4 ≤ 8 ∧ (2 : Nat) + 4 ≤ 8))
    ∧ (copyRectRead [0, 1, 0, 1] = some ((0 * 256 + 1, 0 * 256 + 1), [])
        ∧ drawCopySrc (fun x y => x + 8 * y) 1 1 2 2 4 4
            = blitRect (fun x y => x + 8 * y) 1 1 2 2 4 4) :=
  ⟨⟨⟨by decide, by decide⟩, ⟨by decide, by decide⟩⟩,
    C4_copyrect_overlap_safe 8 8 1 1 2 2 4 4 (fun x y => x + 8 * y) 0 1 0 1 []
      ⟨by decide, by decide⟩ ⟨by decide, by decide⟩⟩

/-- C2: evaluation at the failing input — two consecutive Zlib rectangles
(1×1, default 32-bpp format).  The source resets the inflate context onto the
bytes of the second rectangle alone (`Resetter.Reset`), so the context after the
second rectangle holds only `[5, 6]` and not the continuation
`[120, 156, 99, 5, 6]` required by the persistent-stream claim; it also
requests `w·h·BPP = 32` uncompressed bytes instead of `w·h·bytesPerPixel = 4`. -/
theorem C2_zlib_stream_reset_eval :
    zlibEncodingRead defaultPixelFormat 1 1 none [0, 0, 0, 3, 120, 156, 99]
      = some ⟨some [120, 156, 99], 32, []⟩
    ∧ zlibEncodingRead defaultPixelFormat 1 1 (some [120, 156, 99]) [0, 0, 0, 2, 5, 6]
      = some ⟨some [5, 6], 32, []⟩
    ∧ zlibReadSpecModel defaultPixelFormat 1 1 (some [120, 156, 99]) [0, 0, 0, 2, 5, 6]
      = some ⟨some [120, 156, 99, 5, 6], 4, []⟩
    ∧ (some [5, 6] : ZStream) ≠ some [120, 156, 99, 5, 6] := by decide

/-- C3: evaluation at the failing input — a 1×1 Tight basic Copy rectangle
(uncompressed size 4 < 12 bytes).  The source reads a compact length and
feeds the following bytes to the zlib stream, while the spec-mandated
threshold reads the 4 payload bytes directly with no compact length; the two
parses leave the wire cursor at different positions. -/
theorem C3_tight_no_threshold_eval :
    tightHandleCopy defaultPixelFormat 1 1 0 ⟨none, none, none, none⟩ [4, 1, 2, 3, 4, 7]
      = some ⟨⟨some [1, 2, 3, 4], none, none, none⟩,
          TightPayload.inflated [1, 2, 3, 4] 32, [7]⟩
    ∧ tightCopySpecModel defaultPixelFormat 1 1 0 ⟨none, none, none, none⟩
        [4, 1, 2, 3, 4, 7]
      = some ⟨⟨none, none, none, none⟩, TightPayload.direct [4, 1, 2, 3], [4, 7]⟩
    ∧ ([7] : List Nat) ≠ [4, 7] := by decide

/-- C5: evaluation at the failing input.  The source partitions a 64-pixel
extent into 16-pixel tiles where the spec demands a single 64-pixel tile; on
a 1×1 rectangle whose decompressed stream is a well-formed solid tile
(subencoding 1, 3-byte CPIXEL), the source reads a 4-byte palette entry past
the end of the stream and fails without drawing anything, while the
spec-modelled solid-tile decode consumes exactly the stream and fills the
tile. -/
theorem C5_zrle_eval :
    zrleCodeTileWs 64 = [16, 16, 16, 16]
    ∧ zrleSpecTileWs 64 = [64]
    ∧ zrleReadTiles (bytesPerPixel defaultPixelFormat) 1 1 [1, 10, 20, 30] = none
    ∧ zrleSolidTileSpecModel 3 0 0 1 1 [1, 10, 20, 30]
        = some (FillOp.fill 0 0 1 1 [10, 20, 30], []) := by decide

/-- C6: evaluation at the failing input — the RRE scenario of the spec (rect
(10,10,20,20), N = 1, 4-byte background, one sub-record with a 4-byte pixel
and an 8-byte relative header).  The source demands a 32-byte background
(BPP bits used as a byte count) and fails already there; with enough bytes it
would next fail in `binary.Read(&subRect)` on the interface-carrying struct.
The spec-modelled read succeeds with the background fill and the relative
sub-rectangle fill at (15,15). -/
theorem C6_rre_eval :
    rreReadCode defaultPixelFormat 10 10 20 20
        [0, 0, 0, 1, 200, 0, 0, 255, 0, 0, 200, 255, 0, 5, 0, 5, 0, 10, 0, 10]
      = Except.error "rre: failed to read background color"
    ∧ rreReadCode defaultPixelFormat 10 10 20 20
        ([0, 0, 0, 1] ++ List.replicate 64 9 ++ [0, 5, 0, 5, 0, 10, 0, 10])
      = Except.error binaryReadRectangleErr
    ∧ rreReadSpecModel defaultPixelFormat 10 10 20 20
        [0, 0, 0, 1, 200, 0, 0, 255, 0, 0, 200, 255, 0, 5, 0, 5, 0, 10, 0, 10]
      = some ([FillOp.fill 10 10 20 20 [200, 0, 0, 255],
          FillOp.fill 15 15 10 10 [0, 0, 200, 255]], []) := ⟨rfl, rfl, rfl⟩

/-- C7: evaluation at the failing input — a Tight rectangle with compression
control 0x81 (upper nibble 0x8, Fill) on the default 32-bpp format, with
stream 0 initialised.  The source clears stream 0 (the reset bits run before
the Fill dispatch) and reads 32 colour bytes (BPP bits used as a byte count)
where a single pixel is 4 bytes, deriving the colour from the first three
bytes in B,G,R order. -/
theorem C7_tight_fill_eval :
    tightReadFill defaultPixelFormat ⟨some [7], none, none, none⟩
        (129 :: (([10, 20, 30, 40] ++ List.replicate 28 0) ++ [99]))
      = some ⟨⟨none, none, none, none⟩, ⟨30, 20, 10, 255⟩, [99]⟩
    ∧ (⟨none, none, none, none⟩ : TightStreams) ≠ ⟨some [7], none, none, none⟩ := by
  decide

/-- C8: evaluation at the failing input — a FramebufferUpdate with count
0xFFFF, one 1×1 Raw rectangle and a LastRect terminator.  The source fails
with the "invalid type" error of `binary.Read` before applying any rectangle (and
its loop has no LastRect check at all), while the spec-modelled dispatcher
applies exactly one rectangle and stops at the LastRect with nothing left. -/
theorem C8_lastrect_eval :
    framebufferUpdateReadCode fbuWireExample = Except.error binaryReadRectangleErr
    ∧ fbuReadSpecModel defaultPixelFormat fbuWireExample = Except.ok (1, []) := ⟨rfl, rfl⟩

/-- C9: for a paletted pixel format (true-colour flag 0), an index at or
beyond the length of the colour map yields opaque black (0,0,0,255).  The Go
function returns `color.RGBA` with no error value, so decoding continues and
the connection is not terminated. -/
theorem C9_palette_oob_black (pf : PixelFormat) (pixel : Nat) (m : ColorMap)
    (htc : pf.trueColor = 0) (hoob : m.length ≤ pixel) :
    PixelToRGBA pixel pf (some m) = ⟨0, 0, 0, 255⟩ := by
  simp only [PixelToRGBA, if_pos htc]
  rw [if_neg (by omega)]

/-- C9: witness — an 8-bit paletted format with a one-entry map and index
300. -/
theorem C9_palette_oob_black_witness :
    pf8Paletted.trueColor = 0 ∧ ([⟨9, 9, 9, 255⟩] : ColorMap).length ≤ 300
    ∧ PixelToRGBA 300 pf8Paletted (some [⟨9, 9, 9, 255⟩]) = ⟨0, 0, 0, 255⟩ :=
  ⟨by decide, by decide,
    C9_palette_oob_black pf8Paletted 300 [⟨9, 9, 9, 255⟩] (by decide) (by decide)⟩

/-- C10: `ClientConn.Close` is idempotent — the first call on an open
connection returns the close result of the socket and moves to the fully-closed
state (flag set, quit channel closed, socket closed); any further call
returns nil and leaves the state untouched, so two calls are observably one. -/
theorem C10_close_idempotent (st : ConnState) (r r2 : Option String)
    (h : st.closed = false) :
    (clientConnClose st r).1 = r
    ∧ (clientConnClose st r).2 = ⟨true, true, true⟩
    ∧ clientConnClose (clientConnClose st r).2 r2 = (none, (clientConnClose st r).2) := by
  simp [clientConnClose, h]

/-- C10: witness — closing a fresh connection twice, with a non-nil socket
close result on the first call. -/
theorem C10_close_idempotent_witness :
    (ConnState.mk false false false).closed = false
    ∧ ((clientConnClose ⟨false, false, false⟩ (some "x")).1 = some "x"
      ∧ (clientConnClose ⟨false, false, false⟩ (some "x")).2 = ⟨true, true, true⟩
      ∧ clientConnClose (clientConnClose ⟨false, false, false⟩ (some "x")).2 none
          = (none, (clientConnClose ⟨false, false, false⟩ (some "x")).2)) :=
  ⟨by decide, C10_close_idempotent ⟨false, false, false⟩ (some "x") none (by decide)⟩
